import Mathlib

/-!
Shallow embedding of the TaskSyncer core (Task.js, TaskList.js,
TrelloInterface.js) and proofs about the behaviour of its operations.

JavaScript values are embedded as the inductive `JsVal`; JavaScript
exceptions and promise rejections are embedded as the `Except JsError`
monad.  Statically-known configuration (the field-id enumeration, the
category enumeration and the Trello custom-field / category-list
configuration), which the source reads from `Globals.js` and
`config.json` (not part of the source core), is modelled from the spec
as string constants and a `TrelloConfig` parameter.
-/

namespace TaskSyncer

/-- Embedding of a JavaScript value as used by the synchroniser core. -/
inductive JsVal where
  | undef
  | null
  | bool (b : Bool)
  | str (s : String)
  | num (n : Int)
  | list (xs : List JsVal)
  | obj (kvs : List (String × JsVal))

mutual

def JsVal.decEq : (a b : JsVal) → Decidable (a = b)
  | .undef, .undef => isTrue rfl
  | .null, .null => isTrue rfl
  | .bool a, .bool b =>
    match Bool.decEq a b with
    | isTrue h => isTrue (by rw [h])
    | isFalse h => isFalse (by simp [h])
  | .str a, .str b =>
    match String.decEq a b with
    | isTrue h => isTrue (by rw [h])
    | isFalse h => isFalse (by simp [h])
  | .num a, .num b =>
    match Int.decEq a b with
    | isTrue h => isTrue (by rw [h])
    | isFalse h => isFalse (by simp [h])
  | .list xs, .list ys =>
    match JsVal.decEqList xs ys with
    | isTrue h => isTrue (by rw [h])
    | isFalse h => isFalse (by simp [h])
  | .obj xs, .obj ys =>
    match JsVal.decEqObj xs ys with
    | isTrue h => isTrue (by rw [h])
    | isFalse h => isFalse (by simp [h])
  | .undef, .null => isFalse (by simp)
  | .undef, .bool _ => isFalse (by simp)
  | .undef, .str _ => isFalse (by simp)
  | .undef, .num _ => isFalse (by simp)
  | .undef, .list _ => isFalse (by simp)
  | .undef, .obj _ => isFalse (by simp)
  | .null, .undef => isFalse (by simp)
  | .null, .bool _ => isFalse (by simp)
  | .null, .str _ => isFalse (by simp)
  | .null, .num _ => isFalse (by simp)
  | .null, .list _ => isFalse (by simp)
  | .null, .obj _ => isFalse (by simp)
  | .bool _, .undef => isFalse (by simp)
  | .bool _, .null => isFalse (by simp)
  | .bool _, .str _ => isFalse (by simp)
  | .bool _, .num _ => isFalse (by simp)
  | .bool _, .list _ => isFalse (by simp)
  | .bool _, .obj _ => isFalse (by simp)
  | .str _, .undef => isFalse (by simp)
  | .str _, .null => isFalse (by simp)
  | .str _, .bool _ => isFalse (by simp)
  | .str _, .num _ => isFalse (by simp)
  | .str _, .list _ => isFalse (by simp)
  | .str _, .obj _ => isFalse (by simp)
  | .num _, .undef => isFalse (by simp)
  | .num _, .null => isFalse (by simp)
  | .num _, .bool _ => isFalse (by simp)
  | .num _, .str _ => isFalse (by simp)
  | .num _, .list _ => isFalse (by simp)
  | .num _, .obj _ => isFalse (by simp)
  | .list _, .undef => isFalse (by simp)
  | .list _, .null => isFalse (by simp)
  | .list _, .bool _ => isFalse (by simp)
  | .list _, .str _ => isFalse (by simp)
  | .list _, .num _ => isFalse (by simp)
  | .list _, .obj _ => isFalse (by simp)
  | .obj _, .undef => isFalse (by simp)
  | .obj _, .null => isFalse (by simp)
  | .obj _, .bool _ => isFalse (by simp)
  | .obj _, .str _ => isFalse (by simp)
  | .obj _, .num _ => isFalse (by simp)
  | .obj _, .list _ => isFalse (by simp)

def JsVal.decEqList : (xs ys : List JsVal) → Decidable (xs = ys)
  | [], [] => isTrue rfl
  | x :: xs, y :: ys =>
    match JsVal.decEq x y, JsVal.decEqList xs ys with
    | isTrue h1, isTrue h2 => isTrue (by rw [h1, h2])
    | isFalse h1, _ => isFalse (by simp [h1])
    | _, isFalse h2 => isFalse (by simp [h2])
  | [], _ :: _ => isFalse (by simp)
  | _ :: _, [] => isFalse (by simp)

def JsVal.decEqObj : (xs ys : List (String × JsVal)) → Decidable (xs = ys)
  | [], [] => isTrue rfl
  | (k, x) :: xs, (l, y) :: ys =>
    match String.decEq k l, JsVal.decEq x y, JsVal.decEqObj xs ys with
    | isTrue hk, isTrue h1, isTrue h2 => isTrue (by rw [hk, h1, h2])
    | isFalse hk, _, _ => isFalse (by simp [hk])
    | _, isFalse h1, _ => isFalse (by simp [h1])
    | _, _, isFalse h2 => isFalse (by simp [h2])
  | [], _ :: _ => isFalse (by simp)
  | _ :: _, [] => isFalse (by simp)

end

instance : DecidableEq JsVal := JsVal.decEq

instance {ε α : Type} [DecidableEq ε] [DecidableEq α] :
    DecidableEq (Except ε α) := fun a b =>
  match a, b with
  | .ok x, .ok y => decidable_of_iff (x = y) (by simp)
  | .error x, .error y => decidable_of_iff (x = y) (by simp)
  | .ok _, .error _ => isFalse (by simp)
  | .error _, .ok _ => isFalse (by simp)

/-- JavaScript truthiness of an embedded value. -/
def truthy : JsVal → Bool
  | .undef => false
  | .null => false
  | .bool b => b
  | .str s => decide (s ≠ "")
  | .num n => decide (n ≠ 0)
  | .list _ => true
  | .obj _ => true

/-- Property access `v[k]` on an embedded object value; yields `undefined`
for a missing key or a non-object receiver (receivers are objects at every
use site embedded here). -/
def jsGet (v : JsVal) (k : String) : JsVal :=
  match v with
  | .obj kvs => (kvs.lookup k).getD JsVal.undef
  | _ => JsVal.undef

/-- Key update `m[k] = v` on an embedded object association list. -/
def objSet (kvs : List (String × JsVal)) (k : String) (v : JsVal) :
    List (String × JsVal) :=
  if (kvs.lookup k).isSome then
    kvs.map (fun p => if p.1 = k then (k, v) else p)
  else
    kvs ++ [(k, v)]

/-- Key removal `delete m[k]` on an embedded object association list. -/
def objDelete (kvs : List (String × JsVal)) (k : String) :
    List (String × JsVal) :=
  kvs.filter (fun p => p.1 ≠ k)

/-- `Object.assign(target, source)`: fold every key of the source into the
target, later writes overwriting earlier ones. -/
def objAssign (target source : List (String × JsVal)) : List (String × JsVal) :=
  source.foldl (fun acc p => objSet acc p.1 p.2) target

/-- A thrown JavaScript error or a promise rejection reason.  Rejection
reasons coming back from the HTTP layer carry a status code. -/
structure JsError where
  name : String
  statusCode : Option Int := none
deriving DecidableEq

/-- A `TypeError` thrown synchronously by the embedded code. -/
def typeError (name : String) : JsError := { name := name }

/-- `Set.prototype.add` on a set embedded as a duplicate-free list in
insertion order. -/
def addToSet (s : List String) (x : String) : List String :=
  if x ∈ s then s else s ++ [x]

/-- `Set.prototype.add` for the category sets (JavaScript number values). -/
def addNatToSet (s : List Nat) (x : Nat) : List Nat :=
  if x ∈ s then s else s ++ [x]

/-!
Modelled from the spec: the field-id enumeration of `Globals.js` is not
part of the source core; the spec describes it as a fixed, statically
known set of field identifiers.  Only distinctness of the identifiers
matters to the embedded code, so each is modelled as its own string.
-/

namespace fields

def TRELLO_ID : String := "TRELLO_ID"

def GOOGLE_ID : String := "GOOGLE_ID"

def NAME : String := "NAME"

def DESCRIPTION : String := "DESCRIPTION"

def CATEGORIES : String := "CATEGORIES"

def TAGS : String := "TAGS"

def DAYS : String := "DAYS"

def IS_BEGINNER : String := "IS_BEGINNER"

def MAX_INSTANCES : String := "MAX_INSTANCES"

def LAST_MODIFIED : String := "LAST_MODIFIED"

end fields

/-!
Modelled from the spec: the category enumeration of `Globals.js` is not in
the source core; the spec fixes five explicit categories
(design / coding / docs-training / out-research / qa) encoded as numbers
that double as the keys of the category-list configuration table.
-/

namespace categories

def DESIGN : Nat := 1

def CODING : Nat := 2

def DOCS_TRAINING : Nat := 3

def OUTRESEARCH : Nat := 4

def QA : Nat := 5

end categories

/-- Modelled from the spec: the externally supplied static configuration
(`config.json`): the category number → Trello list id table and the ids of
the Trello custom fields. -/
structure TrelloConfig where
  categoryLists : List (Nat × String)
  isDesign : String
  isCode : String
  isDocs : String
  isOutResearch : String
  isQa : String
  tags : String
  googleId : String
  days : String
  isBeginner : String
  instances : String

/-- The in-memory task record of `Task.js`: a map from field identifiers
to values, the dirty-field set `updatedFields`, and the transient
one-shot flags. -/
structure Task where
  fields : String → Option JsVal
  updatedFields : List String
  googleTaskMade : Bool
  trelloCardMade : Bool
  listCategoryAdded : Bool

/-- `Task#resetUpdatedFields`. -/
def Task.resetUpdatedFields (t : Task) : Task :=
  { t with updatedFields := [] }

/-- `Task#wasFieldUpdated`. -/
def Task.wasFieldUpdated (t : Task) (fieldId : String) : Bool :=
  fieldId ∈ t.updatedFields

/-- `Task#getField`: throws on an unknown field name. -/
def Task.getField (t : Task) (fieldName : String) : Except JsError JsVal :=
  match t.fields fieldName with
  | some v => .ok v
  | none => .error (typeError "attempted to get unknown field")

/-- `Task#setField`: stores the value and adds the field to
`updatedFields`; throws on an unknown field name. -/
def Task.setField (t : Task) (fieldName : String) (value : JsVal) :
    Except JsError Task :=
  if (t.fields fieldName).isSome then
    .ok { t with
          fields := fun g => if g = fieldName then some value else t.fields g,
          updatedFields := addToSet t.updatedFields fieldName }
  else
    .error (typeError "attempted to set unknown field")

/-- `Array.isArray(value) && value.length === 0` for an embedded value. -/
def isEmptyArray : JsVal → Bool
  | .list xs => decide (xs.length = 0)
  | _ => false

/-- `Object.keys(value).length` for an embedded value of JavaScript type
"object"; throws the `TypeError` that `Object.keys(null)` raises. -/
def objKeysLength : JsVal → Except JsError Nat
  | .null => .error (typeError "cannot convert undefined or null to object")
  | .undef => .error (typeError "cannot convert undefined or null to object")
  | .list xs => .ok xs.length
  | .obj kvs => .ok kvs.length
  | .str s => .ok s.length
  | _ => .ok 0

/-- `Task#setIfData`: writes the value only when it is not "nothing"
(undefined, empty string, empty list, empty dict), except that a `null`
pre-existing value always accepts the write.  The source tests the
incoming value with
`Array.isArray(value) && value.length === 0 || Object.keys(value).length === 0 || value == null`,
evaluated left to right, so an incoming `null` reaches `Object.keys(null)`
before its own check and throws. -/
def Task.setIfData (t : Task) (fieldName : String) (value : JsVal) :
    Except JsError Task := do
  let cur ← t.getField fieldName
  if cur ≠ JsVal.null then
    match value with
    | .undef => .ok t
    | .null | .list _ | .obj _ =>
      if isEmptyArray value then
        .ok t
      else do
        let n ← objKeysLength value
        if n = 0 then
          .ok t
        else if value = JsVal.null then
          .ok t
        else
          t.setField fieldName value
    | .str s =>
      if s = "" then .ok t else t.setField fieldName value
    | _ => t.setField fieldName value
  else
    t.setField fieldName value

/-- `Task#addCategory`: `indexOf` then `push` directly on the stored
`CATEGORIES` array, bypassing `setField`. -/
def Task.addCategory (t : Task) (category : JsVal) : Except JsError Task :=
  match t.fields fields.CATEGORIES with
  | some (.list xs) =>
    if category ∈ xs then
      .ok t
    else
      .ok { t with
            fields := fun g =>
              if g = fields.CATEGORIES then some (.list (xs ++ [category]))
              else t.fields g }
  | _ => .error (typeError "indexOf on a non-array categories value")

/-- `Array.prototype.splice(i, 1)`: remove the element at index `i`. -/
def spliceOut (xs : List JsVal) (i : Nat) : List JsVal :=
  xs.take i ++ xs.drop (i + 1)

/-- `Task#removeCategory`: `indexOf` then `splice` directly on the stored
`CATEGORIES` array, bypassing `setField`; when the category is absent it
logs an error built from the `NAME` and `GOOGLE_ID` fields (so those field
reads can throw) and leaves the task unchanged. -/
def Task.removeCategory (t : Task) (category : JsVal) : Except JsError Task :=
  match t.fields fields.CATEGORIES with
  | some (.list xs) =>
    match xs.indexOf? category with
    | some i =>
      .ok { t with
            fields := fun g =>
              if g = fields.CATEGORIES then some (.list (spliceOut xs i))
              else t.fields g }
    | none => do
      let _ ← t.getField fields.NAME
      let _ ← t.getField fields.GOOGLE_ID
      .ok t
  | _ => .error (typeError "indexOf on a non-array categories value")


/-- The main (non-custom-field) section of a raw Trello card, plus its
custom-field items, as consumed and produced by `TrelloInterface.js`. -/
structure RawCard where
  id : String
  name : JsVal
  desc : JsVal
  idList : String
  dateLastActivity : JsVal
  customFieldItems : Option (List JsVal)
deriving DecidableEq

/-- Outcomes of the two remote calls made by the update-else-create path
(`requester.updateCardMain` and `requester.createCard`).  Each call is
made at most once per embedded operation, so one outcome per endpoint
suffices. -/
structure TrelloEnv where
  updateCardMain : Except JsError RawCard
  createCard : Except JsError RawCard

/-- `TrelloInterface#customFieldToValue`: decodes a raw custom field
(`undefined` when the card did not carry the field).  A present field
whose value is `null` decodes to `false`; a checked variant compares the
stored string with the string true; the number variant of the source
computes `parseInt` but never returns it, so it falls out of the function
and yields `undefined`; the text variant returns the stored value; any
other variant throws. -/
def customFieldToValue (field : JsVal) : Except JsError JsVal :=
  if truthy field then
    let v := jsGet field "value"
    if v = JsVal.null then
      .ok (.bool false)
    else
      match v with
      | .obj kvs =>
        match kvs.lookup "checked" with
        | some c => .ok (.bool (decide (c = JsVal.str "true")))
        | none =>
          match kvs.lookup "number" with
          | some _ => .ok JsVal.undef
          | none =>
            match kvs.lookup "text" with
            | some tv => .ok tv
            | none => .error (typeError "custom field contains unknown value type")
      | _ => .error (typeError "in operator applied to a non-object value")
  else
    .ok JsVal.undef

/-- `TrelloInterface#valueToCustomField`: encodes a boolean, string or
number as the matching tri-variant raw custom field; throws on any other
type. -/
def valueToCustomField (value : JsVal) : Except JsError JsVal :=
  match value with
  | .bool b => .ok (.obj [("value", .obj [("checked", .str (toString b))])])
  | .str s => .ok (.obj [("value", .obj [("text", .str s)])])
  | .num n => .ok (.obj [("value", .obj [("number", .str (toString n))])])
  | _ => .error (typeError "unsupported type for trello custom field")

/-- `TrelloInterface#getCustomFieldFromData`: find the card's custom-field
item with the given id and decode it; `undefined` when the card has no
custom-field section. -/
def getCustomFieldFromData (fieldId : String) (data : RawCard) :
    Except JsError JsVal :=
  match data.customFieldItems with
  | some items =>
    customFieldToValue
      (((items.find? (fun it => decide (jsGet it "idCustomField" = JsVal.str fieldId)))).getD .undef)
  | none => .ok JsVal.undef

/-- `TrelloInterface#getCustomFieldFromTask`. -/
def getCustomFieldFromTask (fieldId : String) (t : Task) :
    Except JsError JsVal := do
  let v ← t.getField fieldId
  valueToCustomField v

/-- The five explicit checkbox insertions of `parseCategories`, in the
source's query order (design, code, docs, out-research, qa). -/
def explicitCategorySet (vDesign vCode vDocs vOut vQa : JsVal) : List Nat :=
  let s1 := if truthy vDesign then addNatToSet [] categories.DESIGN else []
  let s2 := if truthy vCode then addNatToSet s1 categories.CODING else s1
  let s3 := if truthy vDocs then addNatToSet s2 categories.DOCS_TRAINING else s2
  let s4 := if truthy vOut then addNatToSet s3 categories.OUTRESEARCH else s3
  if truthy vQa then addNatToSet s4 categories.QA else s4

/-- The category-set computation of `TrelloInterface#parseCategories`
(lines 226 to 254 of the source): the insertion-ordered set built from the
five explicit boolean custom fields and then, if absent, the category the
card's list implies.  Returns the set, whether `listCategoryAdded` was
raised, and whether the not-in-a-category-list error was logged. -/
def parseCategoriesCore (cfg : TrelloConfig) (rawCard : RawCard) :
    Except JsError (List Nat × Bool × Bool) := do
  let vDesign ← getCustomFieldFromData cfg.isDesign rawCard
  let vCode ← getCustomFieldFromData cfg.isCode rawCard
  let vDocs ← getCustomFieldFromData cfg.isDocs rawCard
  let vOut ← getCustomFieldFromData cfg.isOutResearch rawCard
  let vQa ← getCustomFieldFromData cfg.isQa rawCard
  let s5 := explicitCategorySet vDesign vCode vDocs vOut vQa
  match cfg.categoryLists.find? (fun p => decide (p.2 = rawCard.idList)) with
  | some kv =>
    if kv.1 ∈ s5 then .ok (s5, false, false)
    else .ok (s5 ++ [kv.1], true, false)
  | none => .ok (s5, false, true)

/-- `TrelloInterface#parseCategories`: computes the category set, raises
`listCategoryAdded` when the list-implied category was newly added, and
stores the spread set through `setIfData`. -/
def parseCategories (cfg : TrelloConfig) (t : Task) (rawCard : RawCard) :
    Except JsError Task := do
  let r ← parseCategoriesCore cfg rawCard
  let t1 := { t with listCategoryAdded := t.listCategoryAdded || r.2.1 }
  t1.setIfData fields.CATEGORIES (.list (r.1.map (fun n => .num (Int.ofNat n))))

/-- The raw custom field a checked category serialises to. -/
def checkedTrueField : JsVal := .obj [("value", .obj [("checked", .str "true")])]

/-- The raw custom field an unchecked category serialises to
(`value` is the empty string in the source). -/
def emptyValueField : JsVal := .obj [("value", .str "")]

/-- `TrelloInterface#serialiseCategories`: one raw custom field per
explicit category, written in the source's key order. -/
def serialiseCategories (cfg : TrelloConfig) (t : Task) :
    Except JsError (List (String × JsVal)) := do
  let catsV ← t.getField fields.CATEGORIES
  match catsV with
  | .list cs =>
    let mark := fun (c : Nat) =>
      if JsVal.num (Int.ofNat c) ∈ cs then checkedTrueField else emptyValueField
    .ok (objSet (objSet (objSet (objSet (objSet []
          cfg.isCode (mark categories.CODING))
          cfg.isQa (mark categories.QA))
          cfg.isOutResearch (mark categories.OUTRESEARCH))
          cfg.isDocs (mark categories.DOCS_TRAINING))
          cfg.isDesign (mark categories.DESIGN))
  | _ => .error (typeError "includes on a non-array categories value")

/-- `Array.prototype.join` as used on the tags array (tags are strings at
every call site; other element kinds are given a fixed rendering). -/
def jsJoinElem : JsVal → String
  | .str s => s
  | .num n => toString n
  | .bool b => toString b
  | _ => ""

/-- `TrelloInterface#serialiseTags`. -/
def serialiseTags (t : Task) : Except JsError JsVal := do
  let tagsV ← t.getField fields.TAGS
  match tagsV with
  | .list tags =>
    .ok (.obj [("value", .obj [("text", .str (String.intercalate ", " (tags.map jsJoinElem)))])])
  | _ => .error (typeError "join on a non-array tags value")

/-- `TrelloInterface#mainToRaw`: id, description and name as a raw main
section. -/
def mainToRaw (t : Task) : Except JsError (List (String × JsVal)) := do
  let i ← t.getField fields.TRELLO_ID
  let d ← t.getField fields.DESCRIPTION
  let n ← t.getField fields.NAME
  .ok (objSet (objSet (objSet [] "id" i) "desc" d) "name" n)

/-- `categoryLists[v.toString()]`: the table lookup done with the popped
category value. -/
def catListLookup (cfg : TrelloConfig) (v : JsVal) : Option String :=
  match v with
  | .num k => if k < 0 then none else cfg.categoryLists.lookup k.toNat
  | _ => none

/-- What one run of `TrelloInterface#createCard` did: the task afterwards,
the list id assigned to the submitted card, the submitted main section and
the remote's response. -/
structure CreateTrace where
  task : Task
  chosenList : Option String
  submitted : List (String × JsVal)
  response : RawCard

/-- `TrelloInterface#createCard`: chooses the destination list with
`cardCategories.pop()` — which removes the last element of the stored
`CATEGORIES` array in place, without passing through `setField` — or the
table entry for key 1 when the array is empty; submits the main section
without its id; on success direct-writes the response id into
`TRELLO_ID`. -/
def createCard (cfg : TrelloConfig) (env : TrelloEnv) (t : Task) :
    Except JsError CreateTrace := do
  let catsV ← t.getField fields.CATEGORIES
  match catsV with
  | .list cs =>
    let step :=
      match cs.getLast? with
      | some lastV =>
        (catListLookup cfg lastV,
         { t with fields := fun g =>
             if g = fields.CATEGORIES then some (.list cs.dropLast)
             else t.fields g })
      | none => (cfg.categoryLists.lookup 1, t)
    let rawMain ← mainToRaw step.2
    let submitted := objSet (objDelete rawMain "id") "idList"
      ((step.1.map JsVal.str).getD .undef)
    match env.createCard with
    | .ok resp => do
      let t2 ← step.2.setField fields.TRELLO_ID (.str resp.id)
      .ok { task := t2, chosenList := step.1, submitted := submitted,
            response := resp }
    | .error e => .error e
  | _ => .error (typeError "pop on a non-array categories value")

/-- The value an embedded update-else-create run resolves with: either a
raw card or `undefined`. -/
inductive WOCValue where
  | card (c : RawCard)
  | undefVal
deriving DecidableEq

/-- What one run of `TrelloInterface#writeOrCreate` did. -/
structure WOCTrace where
  updateAttempted : Bool
  createCalls : Nat
  value : WOCValue
  task : Task

/-- `TrelloInterface#writeOrCreate`: with a truthy `TRELLO_ID`, attempt
the main-section update; a rejection with status code 404 falls back to
`createCard`, while the handler for any other rejection returns nothing,
so the chain resolves with `undefined`.  With a falsy `TRELLO_ID`, go
straight to `createCard`. -/
def writeOrCreate (cfg : TrelloConfig) (env : TrelloEnv) (t : Task) :
    Except JsError WOCTrace := do
  let tid ← t.getField fields.TRELLO_ID
  if truthy tid then do
    let _rawMain ← mainToRaw t
    match env.updateCardMain with
    | .ok c =>
      .ok { updateAttempted := true, createCalls := 0, value := .card c,
            task := t }
    | .error reason =>
      if reason.statusCode = some 404 then do
        let _ ← t.getField fields.NAME
        let ct ← createCard cfg env t
        .ok { updateAttempted := true, createCalls := 1,
              value := .card ct.response, task := ct.task }
      else
        .ok { updateAttempted := true, createCalls := 0, value := .undefVal,
              task := t }
  else do
    let ct ← createCard cfg env t
    .ok { updateAttempted := false, createCalls := 1,
          value := .card ct.response, task := ct.task }

/-- What one run of `TrelloInterface#writeFields` did: how many times
`writeOrCreate` ran, the task afterwards, the staged custom-field batch,
and the card id the single closing batch update was issued against. -/
structure WriteFieldsTrace where
  wocCalls : Nat
  task : Task
  staged : List (String × JsVal)
  batchCardId : JsVal

/-- The per-field routing loop of `TrelloInterface#writeFields` (lines 70
to 97 of the source).  The `DAYS`, `IS_BEGINNER` and `MAX_INSTANCES` arms
read `fields.GOOGLE_ID` from the task, exactly as the source does. -/
def writeFieldsLoop (cfg : TrelloConfig) (env : TrelloEnv) :
    List String → Task → Nat → List (String × JsVal) →
    Except JsError (Task × Nat × List (String × JsVal))
  | [], t, n, raw => .ok (t, n, raw)
  | f :: rest, t, n, raw =>
    if f = fields.NAME ∨ f = fields.DESCRIPTION then do
      let tr ← writeOrCreate cfg env t
      writeFieldsLoop cfg env rest tr.task (n + 1) raw
    else if f = fields.CATEGORIES then do
      let sc ← serialiseCategories cfg t
      writeFieldsLoop cfg env rest t n (objAssign raw sc)
    else if f = fields.TAGS then do
      let tv ← serialiseTags t
      writeFieldsLoop cfg env rest t n (objSet raw cfg.tags tv)
    else if f = fields.GOOGLE_ID then do
      let v ← getCustomFieldFromTask fields.GOOGLE_ID t
      writeFieldsLoop cfg env rest t n (objSet raw cfg.googleId v)
    else if f = fields.DAYS then do
      let v ← getCustomFieldFromTask fields.GOOGLE_ID t
      writeFieldsLoop cfg env rest t n (objSet raw cfg.days v)
    else if f = fields.IS_BEGINNER then do
      let v ← getCustomFieldFromTask fields.GOOGLE_ID t
      writeFieldsLoop cfg env rest t n (objSet raw cfg.isBeginner v)
    else if f = fields.MAX_INSTANCES then do
      let v ← getCustomFieldFromTask fields.GOOGLE_ID t
      writeFieldsLoop cfg env rest t n (objSet raw cfg.instances v)
    else
      writeFieldsLoop cfg env rest t n raw

/-- `TrelloInterface#writeFields`: route every altered field, then issue
the one closing `_updateAllFields` batch with everything staged. -/
def writeFields (cfg : TrelloConfig) (env : TrelloEnv) (t : Task)
    (alteredFields : List String) : Except JsError WriteFieldsTrace := do
  let r ← writeFieldsLoop cfg env alteredFields t 0 []
  let tid ← r.1.getField fields.TRELLO_ID
  .ok { wocCalls := r.2.1, task := r.1, staged := r.2.2, batchCardId := tid }

/-- A record as `TaskList.js` sees it: the two id properties assigned
directly on the object (absent until assigned). -/
structure RegTask where
  googleId : Option String := none
  trelloId : Option String := none
deriving DecidableEq

/-- `Array.prototype.findIndex` over the registry (`-1` embedded as
`none`). -/
def findIndexP (p : RegTask → Bool) : List RegTask → Option Nat
  | [] => none
  | t :: ts => if p t then some 0 else (findIndexP p ts).map (· + 1)

/-- `TaskList#getTaskFromGoogle`: linear scan by `googleId`; on a miss,
push a fresh record, assign its `googleId`, and return it.  The returned
index is the identity of the returned record instance. -/
def getTaskFromGoogle (tasks : List RegTask) (id : String) :
    List RegTask × Nat :=
  match findIndexP (fun d => decide (d.googleId = some id)) tasks with
  | some i => (tasks, i)
  | none => (tasks ++ [{ googleId := some id }], tasks.length)

/-- `TaskList#getTaskFromTrello`: linear scan by `trelloId`; on a miss,
push a fresh record, assign its `trelloId`, and return it. -/
def getTaskFromTrello (tasks : List RegTask) (id : String) :
    List RegTask × Nat :=
  match findIndexP (fun d => decide (d.trelloId = some id)) tasks with
  | some i => (tasks, i)
  | none => (tasks ++ [{ trelloId := some id }], tasks.length)

/-- The field set every concrete record below carries (the spec's fixed
field enumeration restricted to the fields the board adapter touches). -/
def standardFieldNames : List String :=
  [fields.TRELLO_ID, fields.GOOGLE_ID, fields.NAME, fields.DESCRIPTION,
   fields.CATEGORIES, fields.TAGS, fields.DAYS, fields.IS_BEGINNER,
   fields.MAX_INSTANCES, fields.LAST_MODIFIED]

/-- A concrete record over the standard field set: the given associations,
every other standard field `null` (as the `Task` constructor leaves them),
clean dirty set and cleared flags. -/
def mkTask (vals : List (String × JsVal)) : Task :=
  { fields := fun f =>
      if f ∈ standardFieldNames then some ((vals.lookup f).getD JsVal.null)
      else none,
    updatedFields := [],
    googleTaskMade := false,
    trelloCardMade := false,
    listCategoryAdded := false }

/-- A concrete configuration: category number `k` maps to list id `Lk`. -/
def cfg0 : TrelloConfig :=
  { categoryLists := [(1, "L1"), (2, "L2"), (3, "L3"), (4, "L4"), (5, "L5")],
    isDesign := "cfDesign", isCode := "cfCode", isDocs := "cfDocs",
    isOutResearch := "cfOutResearch", isQa := "cfQa", tags := "cfTags",
    googleId := "cfGoogleId", days := "cfDays", isBeginner := "cfIsBeginner",
    instances := "cfInstances" }

/-- A raw card whose only explicit category checkbox is `isCode`, sitting
in the list mapped to QA. -/
def qaCard : RawCard :=
  { id := "c1"
    name := JsVal.str "n"
    desc := JsVal.str "d"
    idList := "L5"
    dateLastActivity := JsVal.str "t"
    customFieldItems := some [JsVal.obj [("idCustomField", JsVal.str "cfCode"),
      ("value", JsVal.obj [("checked", JsVal.str "true")])]] }

/-- The raw card a successful create call answers with. -/
def newCardResp : RawCard :=
  { id := "newId"
    name := JsVal.str "n"
    desc := JsVal.str "d"
    idList := "L2"
    dateLastActivity := JsVal.str "t"
    customFieldItems := none }

/-- Remote outcomes: the update rejects with status 500, the create
succeeds. -/
def env500 : TrelloEnv :=
  { updateCardMain := Except.error { name := "err", statusCode := some 500 }
    createCard := Except.ok newCardResp }

/-- Remote outcomes: the update rejects with status 404, the create
succeeds. -/
def env404 : TrelloEnv :=
  { updateCardMain := Except.error { name := "err", statusCode := some 404 }
    createCard := Except.ok newCardResp }

/-- A record with two categories and no card id yet. -/
def tCats : Task := mkTask [(fields.CATEGORIES, JsVal.list [JsVal.num 1, JsVal.num 2]),
  (fields.NAME, JsVal.str "nm"), (fields.DESCRIPTION, JsVal.str "ds")]

/-- A record already linked to card `t1`. -/
def tUpd : Task := mkTask [(fields.TRELLO_ID, JsVal.str "t1"),
  (fields.NAME, JsVal.str "nm"), (fields.DESCRIPTION, JsVal.str "ds"),
  (fields.CATEGORIES, JsVal.list [])]

/-- A record with a google id, a days value and a card id. -/
def tDays : Task := mkTask [(fields.TRELLO_ID, JsVal.str "t1"),
  (fields.GOOGLE_ID, JsVal.str "g1"), (fields.DAYS, JsVal.num 5)]

/-- A record whose name holds a non-null value. -/
def tNameX : Task := mkTask [(fields.NAME, JsVal.str "x")]

/-- A record with an empty (non-null) category list. -/
def tEmptyCats : Task := mkTask [(fields.CATEGORIES, JsVal.list [])]

/-- A decoded checkbox custom field: checked, unchecked, or absent. -/
def isCheckboxDecode (v : JsVal) : Prop :=
  v = JsVal.bool true ∨ v = JsVal.bool false ∨ v = JsVal.undef

/-- Which categories the five decoded explicit checkbox values mark as
present (in the source's query order: design, code, docs, out-research,
qa). -/
def explicitCatsTrue (v1 v2 v3 v4 v5 : JsVal) (c : Nat) : Prop :=
  (v1 = JsVal.bool true ∧ c = categories.DESIGN) ∨
  (v2 = JsVal.bool true ∧ c = categories.CODING) ∨
  (v3 = JsVal.bool true ∧ c = categories.DOCS_TRAINING) ∨
  (v4 = JsVal.bool true ∧ c = categories.OUTRESEARCH) ∨
  (v5 = JsVal.bool true ∧ c = categories.QA)

/-- No registry record carries this google id yet. -/
def googleFresh (tasks : List RegTask) (id : String) : Prop :=
  findIndexP (fun d => decide (d.googleId = some id)) tasks = none

/-- No registry record carries this trello id yet. -/
def trelloFresh (tasks : List RegTask) (id : String) : Prop :=
  findIndexP (fun d => decide (d.trelloId = some id)) tasks = none

/-- At most one registry record per distinct id in the given namespace. -/
def atMostOnePer (f : RegTask → Option String) (l : List RegTask) : Prop :=
  ∀ x : String, (l.filter (fun d => decide (f d = some x))).length ≤ 1

theorem exceptOkBind {ε α β : Type} (a : α) (f : α → Except ε β) :
    (Except.ok a : Except ε α) >>= f = f a := rfl

theorem exceptErrorBind {ε α β : Type} (e : ε) (f : α → Except ε β) :
    (Except.error e : Except ε α) >>= f = Except.error e := rfl

theorem mem_addNatToSet (s : List Nat) (x c : Nat) :
    c ∈ addNatToSet s x ↔ c ∈ s ∨ c = x := by
  unfold addNatToSet
  by_cases h : x ∈ s
  · rw [if_pos h]
    constructor
    · exact fun hc => Or.inl hc
    · rintro (hc | rfl)
      · exact hc
      · exact h
  · rw [if_neg h]
    simp

theorem mem_addToSet (s : List String) (x c : String) :
    c ∈ addToSet s x ↔ c ∈ s ∨ c = x := by
  unfold addToSet
  by_cases h : x ∈ s
  · rw [if_pos h]
    constructor
    · exact fun hc => Or.inl hc
    · rintro (hc | rfl)
      · exact hc
      · exact h
  · rw [if_neg h]
    simp

theorem mem_addIfBool (b : Bool) (s : List Nat) (x c : Nat) :
    c ∈ (if b then addNatToSet s x else s) ↔ c ∈ s ∨ (b = true ∧ c = x) := by
  cases b <;> simp [mem_addNatToSet]


theorem checkbox_truthy {v : JsVal} (h : isCheckboxDecode v) :
    truthy v = true ↔ v = JsVal.bool true := by
  rcases h with h | h | h <;> subst h <;> simp [truthy]

theorem mem_explicitCategorySet {v1 v2 v3 v4 v5 : JsVal}
    (hb1 : isCheckboxDecode v1) (hb2 : isCheckboxDecode v2)
    (hb3 : isCheckboxDecode v3) (hb4 : isCheckboxDecode v4)
    (hb5 : isCheckboxDecode v5) (ca : Nat) :
    ca ∈ explicitCategorySet v1 v2 v3 v4 v5 ↔
      explicitCatsTrue v1 v2 v3 v4 v5 ca := by
  unfold explicitCategorySet
  simp only [mem_addIfBool, List.not_mem_nil, false_or]
  simp only [checkbox_truthy hb1, checkbox_truthy hb2, checkbox_truthy hb3,
    checkbox_truthy hb4, checkbox_truthy hb5, explicitCatsTrue]
  tauto

theorem setField_ok_spec {t : Task} {f : String} {v : JsVal} {t2 : Task}
    (h : t.setField f v = Except.ok t2) :
    t2.getField f = Except.ok v ∧
    t2.updatedFields = addToSet t.updatedFields f ∧
    f ∈ t2.updatedFields ∧
    (∀ g, g ≠ f → t2.getField g = t.getField g) := by
  unfold Task.setField at h
  split at h
  · injection h with h2
    subst h2
    refine ⟨by simp [Task.getField], rfl, ?_, ?_⟩
    · simp [mem_addToSet]
    · intro g hg
      simp [Task.getField, hg]
  · exact Except.noConfusion h

theorem getField_isSome {t : Task} {f : String} {v : JsVal}
    (h : t.getField f = Except.ok v) : (t.fields f).isSome := by
  unfold Task.getField at h
  split at h
  · simp [*]
  · exact Except.noConfusion h

theorem getField_update_ne {t : Task} (f g : String) (v : JsVal)
    (hne : g ≠ f) :
    Task.getField { t with fields := fun x => if x = f then some v else t.fields x } g =
      t.getField g := by
  unfold Task.getField
  simp [hne]

theorem mainToRaw_update_categories (t : Task) (v : JsVal) :
    mainToRaw { t with fields := fun x =>
        if x = fields.CATEGORIES then some v else t.fields x } =
      mainToRaw t := by
  unfold mainToRaw
  rw [getField_update_ne _ _ _ (by decide), getField_update_ne _ _ _ (by decide),
    getField_update_ne _ _ _ (by decide)]

theorem findIndexP_append_some {p : RegTask → Bool} {l : List RegTask}
    {i : Nat} (h : findIndexP p l = some i) (l2 : List RegTask) :
    findIndexP p (l ++ l2) = some i := by
  induction l generalizing i with
  | nil => simp [findIndexP] at h
  | cons a as ih =>
    rw [List.cons_append]
    unfold findIndexP at h ⊢
    by_cases hp : p a
    · rw [if_pos hp] at h ⊢
      exact h
    · rw [if_neg hp] at h ⊢
      obtain ⟨j, hj, hji⟩ := Option.map_eq_some'.mp h
      rw [ih hj]
      simpa using hji

theorem findIndexP_cons (p : RegTask → Bool) (a : RegTask)
    (as : List RegTask) :
    findIndexP p (a :: as) =
      if p a then some 0 else (findIndexP p as).map (fun j => j + 1) := rfl

theorem findIndexP_append_none {p : RegTask → Bool} {l : List RegTask}
    (h : findIndexP p l = none) (l2 : List RegTask) :
    findIndexP p (l ++ l2) = (findIndexP p l2).map (fun j => j + l.length) := by
  induction l with
  | nil =>
    simp only [List.nil_append, List.length_nil]
    cases findIndexP p l2 <;> simp
  | cons a as ih =>
    rw [findIndexP_cons] at h
    rw [List.cons_append, findIndexP_cons]
    by_cases hp : p a
    · rw [if_pos hp] at h
      exact Option.noConfusion h
    · rw [if_neg hp] at h ⊢
      rw [ih (by simpa using h)]
      cases findIndexP p l2 with
      | none => rfl
      | some j => simp [List.length_cons, Nat.add_assoc]

theorem findIndexP_none_iff {p : RegTask → Bool} {l : List RegTask} :
    findIndexP p l = none ↔ ∀ x ∈ l, p x = false := by
  induction l with
  | nil => simp [findIndexP]
  | cons a as ih =>
    unfold findIndexP
    by_cases hp : p a
    · simp [hp]
    · simp [hp, ih]

theorem mainToRaw_ok_parts {t : Task} {rm : List (String × JsVal)}
    (h : mainToRaw t = Except.ok rm) :
    ∃ i d n, t.getField fields.TRELLO_ID = Except.ok i ∧
      t.getField fields.DESCRIPTION = Except.ok d ∧
      t.getField fields.NAME = Except.ok n ∧
      rm = [("id", i), ("desc", d), ("name", n)] := by
  unfold mainToRaw at h
  cases hi : t.getField fields.TRELLO_ID with
  | error e => rw [hi, exceptErrorBind] at h; exact Except.noConfusion h
  | ok i =>
    rw [hi, exceptOkBind] at h
    cases hd : t.getField fields.DESCRIPTION with
    | error e => rw [hd, exceptErrorBind] at h; exact Except.noConfusion h
    | ok d =>
      rw [hd, exceptOkBind] at h
      cases hn : t.getField fields.NAME with
      | error e => rw [hn, exceptErrorBind] at h; exact Except.noConfusion h
      | ok n =>
        rw [hn, exceptOkBind] at h
        injection h with h2
        exact ⟨i, d, n, rfl, rfl, rfl, h2.symm⟩

theorem createCard_ok_spec {cfg : TrelloConfig} {env : TrelloEnv} {t : Task}
    {cs : List JsVal} {ct : CreateTrace}
    (hcats : t.getField fields.CATEGORIES = Except.ok (JsVal.list cs))
    (h : createCard cfg env t = Except.ok ct) :
    env.createCard = Except.ok ct.response ∧
    ct.chosenList = (match cs.getLast? with
      | some lastV => catListLookup cfg lastV
      | none => cfg.categoryLists.lookup 1) ∧
    ct.submitted.lookup "id" = none ∧
    ct.submitted.lookup "idList" =
      some ((ct.chosenList.map JsVal.str).getD JsVal.undef) ∧
    ct.task.getField fields.TRELLO_ID = Except.ok (JsVal.str ct.response.id) ∧
    fields.TRELLO_ID ∈ ct.task.updatedFields ∧
    ct.task.getField fields.CATEGORIES = Except.ok (JsVal.list cs.dropLast) ∧
    (fields.CATEGORIES ∈ ct.task.updatedFields ↔ fields.CATEGORIES ∈ t.updatedFields) ∧
    (∃ rm, mainToRaw t = Except.ok rm) ∧
    (∃ nv, t.getField fields.NAME = Except.ok nv) := by
  unfold createCard at h
  rw [hcats, exceptOkBind] at h
  dsimp only [] at h
  cases hl : cs.getLast? with
  | some lastV =>
    rw [hl] at h
    dsimp only [] at h ⊢
    cases hm : mainToRaw { t with fields := fun g =>
        if g = fields.CATEGORIES then some (JsVal.list cs.dropLast) else t.fields g } with
    | error e => rw [hm, exceptErrorBind] at h; exact Except.noConfusion h
    | ok rm =>
      rw [hm, exceptOkBind] at h
      obtain ⟨i, d, n, hi, hd, hn, hrm⟩ := mainToRaw_ok_parts hm
      cases henv : env.createCard with
      | error e => rw [henv] at h; exact Except.noConfusion h
      | ok resp =>
        rw [henv] at h
        dsimp only [] at h
        have hset : Task.setField { t with fields := fun g =>
            if g = fields.CATEGORIES then some (JsVal.list cs.dropLast) else t.fields g }
            fields.TRELLO_ID (JsVal.str resp.id) =
            Except.ok
              { fields := fun g =>
                  if g = fields.TRELLO_ID then some (JsVal.str resp.id)
                  else if g = fields.CATEGORIES then some (JsVal.list cs.dropLast)
                  else t.fields g
                updatedFields := addToSet t.updatedFields fields.TRELLO_ID
                googleTaskMade := t.googleTaskMade
                trelloCardMade := t.trelloCardMade
                listCategoryAdded := t.listCategoryAdded } := by
          unfold Task.setField
          rw [if_pos (getField_isSome hi)]
        rw [hset, exceptOkBind] at h
        injection h with h2
        subst h2
        refine ⟨rfl, rfl, ?_, ?_, ?_, ?_, ?_, ?_, ?_, ?_⟩
        · rw [hrm]; rfl
        · rw [hrm]; rfl
        · simp [Task.getField]
        · simp [mem_addToSet]
        · have : fields.CATEGORIES ≠ fields.TRELLO_ID := by decide
          simp [Task.getField, this]
        · simp [mem_addToSet, show fields.CATEGORIES ≠ fields.TRELLO_ID by decide]
        · exact ⟨rm, by rw [← mainToRaw_update_categories t (JsVal.list cs.dropLast)]; exact hm⟩
        · refine ⟨n, ?_⟩
          rw [← hn, getField_update_ne _ _ _ (by decide)]
  | none =>
    have hcs : cs = [] := by
      cases cs with
      | nil => rfl
      | cons a as => simp [List.getLast?] at hl
    subst hcs
    rw [hl] at h
    dsimp only [] at h ⊢
    cases hm : mainToRaw t with
    | error e => rw [hm, exceptErrorBind] at h; exact Except.noConfusion h
    | ok rm =>
      rw [hm, exceptOkBind] at h
      obtain ⟨i, d, n, hi, hd, hn, hrm⟩ := mainToRaw_ok_parts hm
      cases henv : env.createCard with
      | error e => rw [henv] at h; exact Except.noConfusion h
      | ok resp =>
        rw [henv] at h
        dsimp only [] at h
        have hset : Task.setField t fields.TRELLO_ID (JsVal.str resp.id) =
            Except.ok
              { fields := fun g =>
                  if g = fields.TRELLO_ID then some (JsVal.str resp.id)
                  else t.fields g
                updatedFields := addToSet t.updatedFields fields.TRELLO_ID
                googleTaskMade := t.googleTaskMade
                trelloCardMade := t.trelloCardMade
                listCategoryAdded := t.listCategoryAdded } := by
          unfold Task.setField
          rw [if_pos (getField_isSome hi)]
        rw [hset, exceptOkBind] at h
        injection h with h2
        subst h2
        refine ⟨rfl, rfl, ?_, ?_, ?_, ?_, ?_, ?_, ⟨rm, rfl⟩, ⟨n, hn⟩⟩
        · rw [hrm]; rfl
        · rw [hrm]; rfl
        · simp [Task.getField]
        · simp [mem_addToSet]
        · have hne : fields.CATEGORIES ≠ fields.TRELLO_ID := by decide
          simp only [Task.getField, if_neg hne]
          rw [List.dropLast]
          exact hcats
        · simp [mem_addToSet, show fields.CATEGORIES ≠ fields.TRELLO_ID by decide]

/-- C1: the conditional write honours null-current/always-write, and
no-ops for an incoming undefined, empty string, empty list and empty
mapping, but the claim fails for an incoming `null` on a non-null current
value: the source evaluates `Object.keys(null)` before reaching its own
null check, so `setIfData` throws a `TypeError` there instead of being a
no-op. -/
theorem c1_setIfData_incoming_null_throws :
    tNameX.setIfData fields.NAME JsVal.null =
      Except.error (typeError "cannot convert undefined or null to object") := rfl

/-- C3: with `sourceIdA` set and the main-fields update rejecting with a
non-404 status code, `writeOrCreate` does not propagate the failure to its
caller: the catch handler returns nothing for a non-404 reason, so the
operation resolves with `undefined`; `createCard` is indeed not invoked. -/
theorem c3_writeOrCreate_swallows_non_404 :
    writeOrCreate cfg0 env500 tUpd =
      Except.ok
        { updateAttempted := true
          createCalls := 0
          value := WOCValue.undefVal
          task := tUpd } := rfl

/-- C5: with `DAYS` dirty, `writeFields` stages the days custom field from
the record's `GOOGLE_ID` value (the source reads `fields.GOOGLE_ID` in the
`DAYS`, `IS_BEGINNER` and `MAX_INSTANCES` arms), not from the `DAYS` value
the claim demands: for a record with GOOGLE_ID g1 and DAYS 5 the staged
value is the text encoding of g1, while the DAYS value encodes to the
number variant. -/
theorem c5_writeFields_days_staged_from_googleId :
    writeFields cfg0 env500 tDays [fields.DAYS] =
      Except.ok
        { wocCalls := 0
          task := tDays
          staged := [("cfDays", JsVal.obj [("value", JsVal.obj [("text", JsVal.str "g1")])])]
          batchCardId := JsVal.str "t1" } ∧
    getCustomFieldFromTask fields.DAYS tDays =
      Except.ok (JsVal.obj [("value", JsVal.obj [("number", JsVal.str "5")])]) ∧
    JsVal.obj [("value", JsVal.obj [("text", JsVal.str "g1")])] ≠
      JsVal.obj [("value", JsVal.obj [("number", JsVal.str "5")])] :=
  ⟨rfl, rfl, by decide⟩

/-- C6: decode after encode round-trips booleans and strings, but not
numbers: the source's number branch computes `parseInt` without returning
it, so a number encodes to the number variant and decodes back to
`undefined` rather than to the original number. -/
theorem c6_customFieldToValue_number_not_inverse :
    valueToCustomField (JsVal.num 5) =
      Except.ok (JsVal.obj [("value", JsVal.obj [("number", JsVal.str "5")])]) ∧
    customFieldToValue (JsVal.obj [("value", JsVal.obj [("number", JsVal.str "5")])]) =
      Except.ok JsVal.undef ∧
    JsVal.undef ≠ JsVal.num 5 :=
  ⟨rfl, rfl, by decide⟩

/-- C7 counterexample: for a record whose category set is [1, 2],
`createCard` submits the card to the list mapped from category 2 — the
last category — while the claim says the list mapped from the first
category (list L1). -/
theorem c7_createCard_first_category_counterexample :
    tCats.getField fields.CATEGORIES =
      Except.ok (JsVal.list [JsVal.num 1, JsVal.num 2]) ∧
    (createCard cfg0 env500 tCats).map (fun tr => tr.chosenList) =
      Except.ok (some "L2") ∧
    cfg0.categoryLists.lookup 1 = some "L1" ∧
    (Except.ok (some "L2") : Except JsError (Option String)) ≠
      Except.ok (some "L1") :=
  ⟨rfl, rfl, rfl, by decide⟩

/-- C7 (amended): `createCard` picks the destination list mapped from the
last category of the record's category set (the element `pop` removes), or
the configured list for category key 1 when the set is empty; it submits
the main fields with no id and with the chosen list id; on success it
writes the returned id into `sourceIdA` via direct `set`, which marks
`sourceIdA` dirty. -/
theorem c7_createCard_list_choice (cfg : TrelloConfig) (env : TrelloEnv)
    (t : Task) (cs : List JsVal) (ct : CreateTrace)
    (hcats : t.getField fields.CATEGORIES = Except.ok (JsVal.list cs))
    (h : createCard cfg env t = Except.ok ct) :
    ct.chosenList = (match cs.getLast? with
      | some lastV => catListLookup cfg lastV
      | none => cfg.categoryLists.lookup 1) ∧
    ct.submitted.lookup "id" = none ∧
    ct.submitted.lookup "idList" =
      some ((ct.chosenList.map JsVal.str).getD JsVal.undef) ∧
    env.createCard = Except.ok ct.response ∧
    ct.task.getField fields.TRELLO_ID = Except.ok (JsVal.str ct.response.id) ∧
    fields.TRELLO_ID ∈ ct.task.updatedFields := by
  obtain ⟨h1, h2, h3, h4, h5, h6, _⟩ := createCard_ok_spec hcats h
  exact ⟨h2, h3, h4, h1, h5, h6⟩

/-- Witness for C7 (amended) at a concrete record and environment. -/
theorem c7_createCard_list_choice_witness :
    tCats.getField fields.CATEGORIES =
      Except.ok (JsVal.list [JsVal.num 1, JsVal.num 2]) ∧
    ∃ ct, createCard cfg0 env500 tCats = Except.ok ct ∧
      ct.chosenList = catListLookup cfg0 (JsVal.num 2) ∧
      ct.submitted.lookup "id" = none ∧
      ct.task.getField fields.TRELLO_ID = Except.ok (JsVal.str "newId") := by
  refine ⟨rfl, ?_⟩
  cases hct : createCard cfg0 env500 tCats with
  | error e => exact Except.noConfusion hct
  | ok ct =>
    obtain ⟨h1, h2, h3, h4, h5, h6⟩ := c7_createCard_list_choice cfg0 env500 tCats
      [JsVal.num 1, JsVal.num 2] ct rfl hct
    refine ⟨ct, rfl, ?_, h2, ?_⟩
    · rw [h1]
      rfl
    · have : ct.response = newCardResp := by
        have h4s := h4.symm
        injection h4s
      rw [h5, this]
      rfl

/-- C10: when the category set is non-empty, `createCard` removes the last
element of the stored `CATEGORIES` list in place (via `pop` on the array
the getter returns), shrinking it by one, without marking `CATEGORIES`
dirty; the removed category is the one whose mapped list is chosen as the
destination. -/
theorem c10_createCard_pops_stored_categories (cfg : TrelloConfig)
    (env : TrelloEnv) (t : Task) (cs : List JsVal) (ct : CreateTrace)
    (hcats : t.getField fields.CATEGORIES = Except.ok (JsVal.list cs))
    (hne : cs ≠ [])
    (h : createCard cfg env t = Except.ok ct) :
    ct.task.getField fields.CATEGORIES = Except.ok (JsVal.list cs.dropLast) ∧
    cs.dropLast.length + 1 = cs.length ∧
    (fields.CATEGORIES ∈ ct.task.updatedFields ↔
      fields.CATEGORIES ∈ t.updatedFields) ∧
    ∀ lastV, cs.getLast? = some lastV → ct.chosenList = catListLookup cfg lastV := by
  obtain ⟨_, h2, _, _, _, _, h7, h8, _, _⟩ := createCard_ok_spec hcats h
  refine ⟨h7, ?_, h8, ?_⟩
  · cases cs with
    | nil => exact absurd rfl hne
    | cons a as => simp
  · intro lastV hl
    rw [h2, hl]

/-- Witness for C10 at a concrete record and environment. -/
theorem c10_createCard_pops_stored_categories_witness :
    tCats.getField fields.CATEGORIES =
      Except.ok (JsVal.list [JsVal.num 1, JsVal.num 2]) ∧
    ∃ ct, createCard cfg0 env500 tCats = Except.ok ct ∧
      ct.task.getField fields.CATEGORIES = Except.ok (JsVal.list [JsVal.num 1]) ∧
      (fields.CATEGORIES ∈ ct.task.updatedFields ↔
        fields.CATEGORIES ∈ tCats.updatedFields) ∧
      ct.chosenList = catListLookup cfg0 (JsVal.num 2) := by
  refine ⟨rfl, ?_⟩
  cases hct : createCard cfg0 env500 tCats with
  | error e => exact Except.noConfusion hct
  | ok ct =>
    obtain ⟨k1, k2, k3, k4⟩ := c10_createCard_pops_stored_categories cfg0 env500
      tCats [JsVal.num 1, JsVal.num 2] ct rfl (by decide) hct
    exact ⟨ct, rfl, k1, k3, k4 (JsVal.num 2) rfl⟩

/-- C4: with `sourceIdA` truthy and the main-fields update rejecting with
status 404, `writeOrCreate` falls back to exactly one `createCard` call,
and on its success the record's `TRELLO_ID` holds the id the create call
returned (and is dirty); with `sourceIdA` falsy, `writeOrCreate` goes
straight to `createCard` without attempting an update. -/
theorem c4_writeOrCreate_notfound_fallback (cfg : TrelloConfig)
    (env : TrelloEnv) (t : Task) (tid : JsVal) (cs : List JsVal)
    (htid : t.getField fields.TRELLO_ID = Except.ok tid)
    (hcats : t.getField fields.CATEGORIES = Except.ok (JsVal.list cs)) :
    (∀ r ct, truthy tid = true → env.updateCardMain = Except.error r →
      r.statusCode = some 404 → createCard cfg env t = Except.ok ct →
      writeOrCreate cfg env t =
        Except.ok
          { updateAttempted := true
            createCalls := 1
            value := WOCValue.card ct.response
            task := ct.task } ∧
      ct.task.getField fields.TRELLO_ID = Except.ok (JsVal.str ct.response.id) ∧
      fields.TRELLO_ID ∈ ct.task.updatedFields) ∧
    (∀ ct, truthy tid = false → createCard cfg env t = Except.ok ct →
      writeOrCreate cfg env t =
        Except.ok
          { updateAttempted := false
            createCalls := 1
            value := WOCValue.card ct.response
            task := ct.task }) := by
  constructor
  · intro r ct htr hupd h404 hct
    obtain ⟨_, _, _, _, h5, h6, _, _, ⟨rm, hrm⟩, ⟨nv, hnv⟩⟩ :=
      createCard_ok_spec hcats hct
    refine ⟨?_, h5, h6⟩
    unfold writeOrCreate
    rw [htid, exceptOkBind, if_pos htr, hrm, exceptOkBind, hupd]
    dsimp only []
    rw [h404, if_pos rfl, hnv, exceptOkBind, hct, exceptOkBind]
  · intro ct hfalse hct
    unfold writeOrCreate
    rw [htid, exceptOkBind, if_neg (by simp [hfalse]), hct, exceptOkBind]

/-- Witness for C4 at a concrete record and environment. -/
theorem c4_writeOrCreate_notfound_fallback_witness :
    truthy (JsVal.str "t1") = true ∧
    env404.updateCardMain =
      Except.error { name := "err", statusCode := some 404 } ∧
    ∃ ct, createCard cfg0 env404 tUpd = Except.ok ct ∧
      writeOrCreate cfg0 env404 tUpd =
        Except.ok
          { updateAttempted := true
            createCalls := 1
            value := WOCValue.card ct.response
            task := ct.task } ∧
      ct.task.getField fields.TRELLO_ID = Except.ok (JsVal.str ct.response.id) := by
  refine ⟨by decide, rfl, ?_⟩
  cases hct : createCard cfg0 env404 tUpd with
  | error e => exact Except.noConfusion hct
  | ok ct =>
    obtain ⟨w1, w2, w3⟩ :=
      (c4_writeOrCreate_notfound_fallback cfg0 env404 tUpd (JsVal.str "t1") []
        rfl rfl).1 { name := "err", statusCode := some 404 } ct (by decide) rfl
        rfl hct
    exact ⟨ct, rfl, w1, w2⟩

/-- C8 counterexample: `addCategory` on a record whose stored `CATEGORIES`
list is empty changes the stored value from the empty list to a singleton
yet leaves the dirty set empty, so a value-changing operation exists that
does not mark the field dirty. -/
theorem c8_addCategory_not_dirty_counterexample :
    (tEmptyCats.addCategory (JsVal.num 7)).map
      (fun t => (t.getField fields.CATEGORIES, t.updatedFields)) =
      Except.ok (Except.ok (JsVal.list [JsVal.num 7]), ([] : List String)) ∧
    tEmptyCats.getField fields.CATEGORIES = Except.ok (JsVal.list []) ∧
    (Except.ok (JsVal.list [JsVal.num 7]) : Except JsError JsVal) ≠
      Except.ok (JsVal.list []) :=
  ⟨rfl, rfl, by decide⟩

/-- C8 (amended): the direct write marks the written field dirty, and the
conditional write marks the field dirty whenever it changed the stored
value; but `addCategory` and `removeCategory` mutate the stored
`CATEGORIES` list in place and never touch the dirty set. -/
theorem c8_dirty_marking (t t2 : Task) (f : String) (v c : JsVal) :
    (t.setField f v = Except.ok t2 → f ∈ t2.updatedFields) ∧
    (t.setIfData f v = Except.ok t2 → t2.getField f ≠ t.getField f →
      f ∈ t2.updatedFields) ∧
    (t.addCategory c = Except.ok t2 → t2.updatedFields = t.updatedFields) ∧
    (t.removeCategory c = Except.ok t2 → t2.updatedFields = t.updatedFields) := by
  refine ⟨?_, ?_, ?_, ?_⟩
  · intro h
    exact (setField_ok_spec h).2.2.1
  · intro h hne
    unfold Task.setIfData at h
    cases hg : t.getField f with
    | error e => rw [hg, exceptErrorBind] at h; exact Except.noConfusion h
    | ok cur =>
      rw [hg, exceptOkBind] at h
      by_cases hc : cur = JsVal.null
      · rw [if_neg (by simp [hc])] at h
        exact (setField_ok_spec h).2.2.1
      · rw [if_pos hc] at h
        cases v with
        | undef =>
          injection h with h2
          subst h2
          exact absurd rfl hne
        | bool b => exact (setField_ok_spec h).2.2.1
        | num n => exact (setField_ok_spec h).2.2.1
        | str s =>
          dsimp only [] at h
          by_cases hs : s = ""
          · subst hs
            rw [if_pos rfl] at h
            injection h with h2
            subst h2
            exact absurd rfl hne
          · rw [if_neg hs] at h
            exact (setField_ok_spec h).2.2.1
        | null => exact Except.noConfusion h
        | list xs =>
          dsimp only [] at h
          by_cases hxs : xs = []
          · subst hxs
            injection h with h2
            subst h2
            exact absurd rfl hne
          · rw [if_neg (by simp [isEmptyArray, hxs])] at h
            rw [show objKeysLength (JsVal.list xs) = Except.ok xs.length from rfl,
              exceptOkBind] at h
            rw [if_neg (by simp [hxs]), if_neg (by simp)] at h
            exact (setField_ok_spec h).2.2.1
        | obj kvs =>
          dsimp only [] at h
          by_cases hk : kvs = []
          · subst hk
            injection h with h2
            subst h2
            exact absurd rfl hne
          · rw [if_neg (by simp [isEmptyArray])] at h
            rw [show objKeysLength (JsVal.obj kvs) = Except.ok kvs.length from rfl,
              exceptOkBind] at h
            rw [if_neg (by simp [hk]), if_neg (by simp)] at h
            exact (setField_ok_spec h).2.2.1
  · intro h
    unfold Task.addCategory at h
    split at h
    · split at h
      · injection h with h2
        subst h2
        rfl
      · injection h with h2
        subst h2
        rfl
    · exact Except.noConfusion h
  · intro h
    unfold Task.removeCategory at h
    split at h
    · split at h
      · injection h with h2
        subst h2
        rfl
      · cases hn : t.getField fields.NAME with
        | error e => rw [hn, exceptErrorBind] at h; exact Except.noConfusion h
        | ok nv =>
          rw [hn, exceptOkBind] at h
          cases hg2 : t.getField fields.GOOGLE_ID with
          | error e => rw [hg2, exceptErrorBind] at h; exact Except.noConfusion h
          | ok gv =>
            rw [hg2, exceptOkBind] at h
            injection h with h2
            subst h2
            rfl
    · exact Except.noConfusion h

/-- Witness for C8 (amended) at concrete records. -/
theorem c8_dirty_marking_witness :
    (∃ t2, tEmptyCats.setField fields.NAME (JsVal.str "z") = Except.ok t2 ∧
      fields.NAME ∈ t2.updatedFields) ∧
    (∃ t3, tEmptyCats.addCategory (JsVal.num 7) = Except.ok t3 ∧
      t3.updatedFields = tEmptyCats.updatedFields) := by
  constructor
  · cases hs : tEmptyCats.setField fields.NAME (JsVal.str "z") with
    | error e => exact Except.noConfusion hs
    | ok t2 =>
      exact ⟨t2, rfl, (c8_dirty_marking tEmptyCats t2 fields.NAME
        (JsVal.str "z") (JsVal.num 0)).1 hs⟩
  · cases ha : tEmptyCats.addCategory (JsVal.num 7) with
    | error e => exact Except.noConfusion ha
    | ok t3 =>
      exact ⟨t3, rfl, (c8_dirty_marking tEmptyCats t3 fields.NAME
        (JsVal.str "z") (JsVal.num 7)).2.2.1 ha⟩

/-- C2: the computed category set is the union of the categories whose
explicit checkbox custom fields decode to true with the category implied
by the card's list id, the latter added only if not already present; the
`listCategoryAdded` signal is raised exactly when that implied category
had to be added; and when the card's list id is not in the lookup table,
the error is logged, no implied category is added, and the signal is not
raised. -/
theorem c2_parseCategories_category_set (cfg : TrelloConfig) (card : RawCard)
    (v1 v2 v3 v4 v5 : JsVal)
    (h1 : getCustomFieldFromData cfg.isDesign card = Except.ok v1)
    (h2 : getCustomFieldFromData cfg.isCode card = Except.ok v2)
    (h3 : getCustomFieldFromData cfg.isDocs card = Except.ok v3)
    (h4 : getCustomFieldFromData cfg.isOutResearch card = Except.ok v4)
    (h5 : getCustomFieldFromData cfg.isQa card = Except.ok v5)
    (hb1 : isCheckboxDecode v1) (hb2 : isCheckboxDecode v2)
    (hb3 : isCheckboxDecode v3) (hb4 : isCheckboxDecode v4)
    (hb5 : isCheckboxDecode v5) :
    ∃ s added logged,
      parseCategoriesCore cfg card = Except.ok (s, added, logged) ∧
      (∀ kv, cfg.categoryLists.find? (fun p => decide (p.2 = card.idList)) = some kv →
        ((∀ ca, ca ∈ s ↔ (explicitCatsTrue v1 v2 v3 v4 v5 ca ∨ ca = kv.1)) ∧
         (added = true ↔ ¬ explicitCatsTrue v1 v2 v3 v4 v5 kv.1) ∧
         logged = false)) ∧
      (cfg.categoryLists.find? (fun p => decide (p.2 = card.idList)) = none →
        ((∀ ca, ca ∈ s ↔ explicitCatsTrue v1 v2 v3 v4 v5 ca) ∧
         added = false ∧ logged = true)) := by
  have hex := mem_explicitCategorySet hb1 hb2 hb3 hb4 hb5
  unfold parseCategoriesCore
  rw [h1, exceptOkBind, h2, exceptOkBind, h3, exceptOkBind, h4, exceptOkBind,
    h5, exceptOkBind]
  cases hf : cfg.categoryLists.find? (fun p => decide (p.2 = card.idList)) with
  | none =>
    dsimp only []
    refine ⟨_, _, _, rfl, ?_, ?_⟩
    · intro kv hkv
      exact Option.noConfusion hkv
    · intro _
      exact ⟨hex, rfl, rfl⟩
  | some kv =>
    dsimp only []
    by_cases hin : kv.1 ∈ explicitCategorySet v1 v2 v3 v4 v5
    · rw [if_pos hin]
      refine ⟨_, _, _, rfl, ?_, ?_⟩
      · intro kv2 hkv2
        injection hkv2 with hkv3
        subst hkv3
        have hkx := (hex kv.1).mp hin
        refine ⟨?_, ?_, rfl⟩
        · intro ca
          rw [hex ca]
          constructor
          · exact fun hc => Or.inl hc
          · rintro (hc | rfl)
            · exact hc
            · exact hkx
        · constructor
          · intro hft
            exact absurd hft (by simp)
          · intro hnex
            exact (hnex hkx).elim
      · intro hnone
        exact Option.noConfusion hnone
    · rw [if_neg hin]
      refine ⟨_, _, _, rfl, ?_, ?_⟩
      · intro kv2 hkv2
        injection hkv2 with hkv3
        subst hkv3
        refine ⟨?_, ?_, rfl⟩
        · intro ca
          rw [List.mem_append, List.mem_singleton, hex ca]
        · constructor
          · intro _
            exact fun hexk => hin ((hex kv.1).mpr hexk)
          · intro _
            rfl
      · intro hnone
        exact Option.noConfusion hnone

/-- Witness for C2: a card whose only explicit checkbox is the coding one,
sitting in the list mapped to QA, yields the set containing coding and qa
with the inferred signal raised. -/
theorem c2_parseCategories_category_set_witness :
    isCheckboxDecode (JsVal.bool true) ∧
    ∃ s added logged,
      parseCategoriesCore cfg0 qaCard = Except.ok (s, added, logged) ∧
      categories.CODING ∈ s ∧ categories.QA ∈ s ∧ added = true ∧
      logged = false := by
  refine ⟨by unfold isCheckboxDecode; decide, ?_⟩
  obtain ⟨s, added, logged, heq, hsome, hnone⟩ :=
    c2_parseCategories_category_set cfg0 qaCard JsVal.undef (JsVal.bool true)
      JsVal.undef JsVal.undef JsVal.undef rfl rfl rfl rfl rfl
      (by unfold isCheckboxDecode; decide) (by unfold isCheckboxDecode; decide)
      (by unfold isCheckboxDecode; decide) (by unfold isCheckboxDecode; decide)
      (by unfold isCheckboxDecode; decide)
  obtain ⟨hmem, hadd, hlog⟩ := hsome (5, "L5") rfl
  refine ⟨s, added, logged, heq, ?_, ?_, ?_, hlog⟩
  · exact (hmem categories.CODING).mpr (Or.inl (by unfold explicitCatsTrue; decide))
  · exact (hmem categories.QA).mpr (Or.inr rfl)
  · exact hadd.mpr (by unfold explicitCatsTrue; decide)

theorem getTaskFromGoogle_idem (tasks : List RegTask) (id : String) :
    getTaskFromGoogle (getTaskFromGoogle tasks id).1 id =
      getTaskFromGoogle tasks id := by
  unfold getTaskFromGoogle
  cases hf : findIndexP (fun d => decide (d.googleId = some id)) tasks with
  | some i => simp [hf]
  | none =>
    dsimp only []
    have hnew : findIndexP (fun d => decide (d.googleId = some id))
        (tasks ++ [{ googleId := some id }]) = some tasks.length := by
      rw [findIndexP_append_none hf]
      simp [findIndexP]
    rw [hnew]

theorem getTaskFromTrello_idem (tasks : List RegTask) (id : String) :
    getTaskFromTrello (getTaskFromTrello tasks id).1 id =
      getTaskFromTrello tasks id := by
  unfold getTaskFromTrello
  cases hf : findIndexP (fun d => decide (d.trelloId = some id)) tasks with
  | some i => simp [hf]
  | none =>
    dsimp only []
    have hnew : findIndexP (fun d => decide (d.trelloId = some id))
        (tasks ++ [{ trelloId := some id }]) = some tasks.length := by
      rw [findIndexP_append_none hf]
      simp [findIndexP]
    rw [hnew]

theorem getTaskFromGoogle_fresh {tasks : List RegTask} {id : String}
    (hfr : googleFresh tasks id) :
    getTaskFromGoogle tasks id =
      (tasks ++ [{ googleId := some id }], tasks.length) := by
  unfold googleFresh at hfr
  unfold getTaskFromGoogle
  rw [hfr]

theorem getTaskFromTrello_fresh {tasks : List RegTask} {id : String}
    (hfr : trelloFresh tasks id) :
    getTaskFromTrello tasks id =
      (tasks ++ [{ trelloId := some id }], tasks.length) := by
  unfold trelloFresh at hfr
  unfold getTaskFromTrello
  rw [hfr]

theorem getTaskFromGoogle_two_fresh {tasks : List RegTask} {id id2 : String}
    (hne : id ≠ id2) (h1 : googleFresh tasks id)
    (h2 : googleFresh tasks id2) :
    (getTaskFromGoogle (getTaskFromGoogle tasks id).1 id2).2 ≠
      (getTaskFromGoogle tasks id).2 ∧
    (getTaskFromGoogle (getTaskFromGoogle tasks id).1 id2).1.length =
      tasks.length + 2 := by
  unfold googleFresh at h2
  have h2ext : findIndexP (fun d => decide (d.googleId = some id2))
      (tasks ++ [{ googleId := some id }]) = none := by
    rw [findIndexP_append_none h2]
    simp [findIndexP, hne]
  rw [getTaskFromGoogle_fresh h1]
  dsimp only []
  rw [getTaskFromGoogle_fresh h2ext]
  constructor
  · simp
  · simp

theorem getTaskFromTrello_two_fresh {tasks : List RegTask} {id id2 : String}
    (hne : id ≠ id2) (h1 : trelloFresh tasks id)
    (h2 : trelloFresh tasks id2) :
    (getTaskFromTrello (getTaskFromTrello tasks id).1 id2).2 ≠
      (getTaskFromTrello tasks id).2 ∧
    (getTaskFromTrello (getTaskFromTrello tasks id).1 id2).1.length =
      tasks.length + 2 := by
  unfold trelloFresh at h2
  have h2ext : findIndexP (fun d => decide (d.trelloId = some id2))
      (tasks ++ [{ trelloId := some id }]) = none := by
    rw [findIndexP_append_none h2]
    simp [findIndexP, hne]
  rw [getTaskFromTrello_fresh h1]
  dsimp only []
  rw [getTaskFromTrello_fresh h2ext]
  constructor
  · simp
  · simp

theorem atMostOnePer_append_none {f : RegTask → Option String}
    {tasks : List RegTask} {a : RegTask}
    (hu : atMostOnePer f tasks) (hfa : f a = none) :
    atMostOnePer f (tasks ++ [a]) := by
  intro x
  rw [List.filter_append, List.length_append]
  have h0 : (List.filter (fun d => decide (f d = some x)) [a]).length = 0 := by
    simp [List.filter, hfa]
  rw [h0]
  simpa using hu x

theorem atMostOnePer_append_fresh {f : RegTask → Option String}
    {tasks : List RegTask} {a : RegTask} {id : String}
    (hu : atMostOnePer f tasks) (hfa : f a = some id)
    (hfresh : ∀ d ∈ tasks, ¬ f d = some id) :
    atMostOnePer f (tasks ++ [a]) := by
  intro x
  rw [List.filter_append, List.length_append]
  by_cases hx : x = id
  · subst hx
    have h0 : (List.filter (fun d => decide (f d = some x)) tasks).length = 0 := by
      rw [List.length_eq_zero, List.filter_eq_nil_iff]
      intro d hd
      simpa using hfresh d hd
    rw [h0]
    simp [List.filter, hfa]
  · have h0 : (List.filter (fun d => decide (f d = some x)) [a]).length = 0 := by
      simp [List.filter, hfa, Ne.symm hx]
    rw [h0]
    simpa using hu x

/-- C9: the registry get-or-create preserves identity uniqueness: a second
call with the same id returns the identical record (same registry, same
index) without growth; a call with a fresh id appends exactly one record
and returns its index; two calls with distinct fresh ids return distinct
indices while growing the registry by exactly two; and both operations
preserve the at-most-one-record-per-id invariant in both id namespaces. -/
theorem c9_registry_get_or_create (tasks : List RegTask) (id id2 : String) :
    (getTaskFromGoogle (getTaskFromGoogle tasks id).1 id =
        getTaskFromGoogle tasks id ∧
     getTaskFromTrello (getTaskFromTrello tasks id).1 id =
        getTaskFromTrello tasks id) ∧
    (googleFresh tasks id →
      (getTaskFromGoogle tasks id).1 = tasks ++ [{ googleId := some id }] ∧
      (getTaskFromGoogle tasks id).2 = tasks.length) ∧
    (trelloFresh tasks id →
      (getTaskFromTrello tasks id).1 = tasks ++ [{ trelloId := some id }] ∧
      (getTaskFromTrello tasks id).2 = tasks.length) ∧
    (id ≠ id2 → googleFresh tasks id → googleFresh tasks id2 →
      (getTaskFromGoogle (getTaskFromGoogle tasks id).1 id2).2 ≠
        (getTaskFromGoogle tasks id).2 ∧
      (getTaskFromGoogle (getTaskFromGoogle tasks id).1 id2).1.length =
        tasks.length + 2) ∧
    (id ≠ id2 → trelloFresh tasks id → trelloFresh tasks id2 →
      (getTaskFromTrello (getTaskFromTrello tasks id).1 id2).2 ≠
        (getTaskFromTrello tasks id).2 ∧
      (getTaskFromTrello (getTaskFromTrello tasks id).1 id2).1.length =
        tasks.length + 2) ∧
    (atMostOnePer (fun d => d.googleId) tasks →
      atMostOnePer (fun d => d.googleId) (getTaskFromGoogle tasks id).1 ∧
      atMostOnePer (fun d => d.googleId) (getTaskFromTrello tasks id).1) ∧
    (atMostOnePer (fun d => d.trelloId) tasks →
      atMostOnePer (fun d => d.trelloId) (getTaskFromGoogle tasks id).1 ∧
      atMostOnePer (fun d => d.trelloId) (getTaskFromTrello tasks id).1) := by
  refine ⟨⟨getTaskFromGoogle_idem tasks id, getTaskFromTrello_idem tasks id⟩,
    ?_, ?_, ?_, ?_, ?_, ?_⟩
  · intro hfr
    rw [getTaskFromGoogle_fresh hfr]
    exact ⟨rfl, rfl⟩
  · intro hfr
    rw [getTaskFromTrello_fresh hfr]
    exact ⟨rfl, rfl⟩
  · exact fun hne h1 h2 => getTaskFromGoogle_two_fresh hne h1 h2
  · exact fun hne h1 h2 => getTaskFromTrello_two_fresh hne h1 h2
  · intro hu
    constructor
    · unfold getTaskFromGoogle
      cases hf : findIndexP (fun d => decide (d.googleId = some id)) tasks with
      | some i => exact hu
      | none =>
        dsimp only []
        refine atMostOnePer_append_fresh hu rfl ?_
        intro d hd
        have hfd := findIndexP_none_iff.mp hf d hd
        simpa using hfd
    · unfold getTaskFromTrello
      cases hf : findIndexP (fun d => decide (d.trelloId = some id)) tasks with
      | some i => exact hu
      | none =>
        dsimp only []
        exact atMostOnePer_append_none hu rfl
  · intro hu
    constructor
    · unfold getTaskFromGoogle
      cases hf : findIndexP (fun d => decide (d.googleId = some id)) tasks with
      | some i => exact hu
      | none =>
        dsimp only []
        exact atMostOnePer_append_none hu rfl
    · unfold getTaskFromTrello
      cases hf : findIndexP (fun d => decide (d.trelloId = some id)) tasks with
      | some i => exact hu
      | none =>
        dsimp only []
        refine atMostOnePer_append_fresh hu rfl ?_
        intro d hd
        have hfd := findIndexP_none_iff.mp hf d hd
        simpa using hfd

/-- Witness for C9 on the empty registry with ids a and b. -/
theorem c9_registry_get_or_create_witness :
    googleFresh ([] : List RegTask) "a" ∧
    getTaskFromGoogle (getTaskFromGoogle [] "a").1 "a" =
      getTaskFromGoogle [] "a" ∧
    (getTaskFromGoogle ([] : List RegTask) "a").1 =
      [{ googleId := some "a" }] ∧
    (getTaskFromGoogle (getTaskFromGoogle [] "a").1 "b").2 ≠
      (getTaskFromGoogle ([] : List RegTask) "a").2 ∧
    atMostOnePer (fun d => d.googleId) (getTaskFromGoogle [] "a").1 := by
  have hth := c9_registry_get_or_create [] "a" "b"
  have hu0 : atMostOnePer (fun d => d.googleId) ([] : List RegTask) := by
    intro x
    simp
  refine ⟨rfl, hth.1.1, ?_, ?_, ?_⟩
  · exact (hth.2.1 rfl).1
  · exact (hth.2.2.2.1 (by decide) rfl rfl).1
  · exact (hth.2.2.2.2.2.1 hu0).1

end TaskSyncer
